import Mathlib

/-!
Formal model of the student expense tracker
(`src/App.js`, `src/ExpenseScreen.js`).

Embedding conventions:
* JavaScript timestamps (`new Date()`, milliseconds since the Unix epoch)
  are modelled as `Int`; the time-zone offset of the device is a fixed
  number of minutes east of UTC (`off : Int`), i.e. local time =
  UTC time + `off` minutes.  Daylight-saving transitions are outside the
  model (the offset is constant over the instants a single theorem
  mentions).
* JavaScript floating-point numbers are modelled as exact rationals `ℚ`;
  the amounts the claims mention are small decimal literals whose float
  images are exact, and sign tests / sums on them agree with the rational
  model.  Non-finite values (`Infinity`, `NaN`) are represented by the
  failure case of the `Option` returned by the parse function.
* JavaScript objects used as string-keyed maps (`totals` in
  `getTotalsByCategory`) are modelled as insertion-ordered association
  lists with unique keys, updated in place at the first (unique) matching
  key.
* The SQLite store of the app is modelled at two levels.  For claim C1 the
  actual schema created by `onInit` in `src/App.js` together with the
  column-name checking SQLite performs on the statements the screen
  issues.  For the remaining claims the store contract the spec assigns
  to the external storage collaborator (section 6 of the spec): a list of
  expense rows with fresh-id insert, update-by-id, delete-by-id.
-/

namespace ExpenseTracker

attribute [local semireducible] Rat.mul Rat.inv Rat.add Rat.sub

/-! ## Time and calendar model -/

/-- Milliseconds in one day. -/
def msPerDay : Int := 86400000

/-- Milliseconds in one minute. -/
def msPerMinute : Int := 60000

/-- Day number (days since 1970-01-01) of the UTC calendar date containing
the instant `now`.  `Int` division is Euclidean, which is floor division
for the positive divisor used here, matching real timestamp arithmetic. -/
def utcDay (now : Int) : Int := now / msPerDay

/-- Day number of the local calendar date containing the instant `now`
for a device whose time zone is `off` minutes east of UTC. -/
def localDay (now off : Int) : Int := (now + off * msPerMinute) / msPerDay

/-- Day of week of a day number, JavaScript convention: Sunday = 0.
1970-01-01 (day 0) was a Thursday (= 4). -/
def weekdayOf (day : Int) : Int := (day + 4) % 7

/-- Model of `today.getDay()` in `getFilteredExpenses`: day of week of the
local calendar date of the instant. -/
def getDayJs (now off : Int) : Int := weekdayOf (localDay now off)

/-- Civil date (year, month, day) of a day number; the `civil_from_days` algorithm of Howard Hinnant, the standard proleptic-Gregorian conversion
used by date libraries. -/
def civilFromDays (z0 : Int) : Int × Int × Int :=
  let z := z0 + 719468
  let era := z / 146097
  let doe := z - era * 146097
  let yoe := (doe - doe / 1460 + doe / 36524 - doe / 146096) / 365
  let y := yoe + era * 400
  let doy := doe - (365 * yoe + yoe / 4 - yoe / 100)
  let mp := (5 * doy + 2) / 153
  let d := doy - (153 * mp + 2) / 5 + 1
  let m := mp + (if mp < 10 then 3 else -9)
  (y + (if m ≤ 2 then 1 else 0), m, d)

/-- Day number of a civil date (year, month, day); the Hinnant `days_from_civil` conversion, inverse of `civilFromDays`. -/
def daysFromCivil (y0 m d : Int) : Int :=
  let y := y0 - (if m ≤ 2 then 1 else 0)
  let era := y / 400
  let yoe := y - era * 400
  let mp := if m > 2 then m - 3 else m + 9
  let doy := (153 * mp + 2) / 5 + d - 1
  let doe := yoe * 365 + yoe / 4 - yoe / 100 + doy
  era * 146097 + doe - 719468

/-- Gregorian leap-year test. -/
def isLeap (y : Int) : Bool := (y % 4 == 0 && y % 100 != 0) || y % 400 == 0

/-- Number of days in a month of a given year. -/
def daysInMonth (y m : Int) : Int :=
  if m == 2 then (if isLeap y then 29 else 28)
  else if m == 4 || m == 6 || m == 9 || m == 11 then 30
  else 31

/-- Two-digit zero-padded rendering of a component of a date. -/
def pad2 (n : Int) : String := if n < 10 then "0" ++ toString n else toString n

/-- ISO "YYYY-MM-DD" rendering of a day number, as produced by the date
part of `Date.prototype.toISOString`. -/
def isoOfDay (day : Int) : String :=
  match civilFromDays day with
  | (y, m, d) => toString y ++ "-" ++ pad2 m ++ "-" ++ pad2 d

/-- Model of `getToday` in `src/ExpenseScreen.js`:
`new Date().toISOString().split(..)[0]` — the date part of the ISO
rendering of the current instant, which is the **UTC** calendar date. -/
def getToday (now : Int) : String := isoOfDay (utcDay now)

/-- Model of JavaScript `String.prototype.trim`: strip leading and
trailing whitespace.  Implemented directly on the character list (the
library trim of this toolchain is defined by well-founded recursion on
byte positions and does not evaluate inside the kernel). -/
def jsTrim (s : String) : String :=
  ⟨((s.data.dropWhile Char.isWhitespace).reverse.dropWhile Char.isWhitespace).reverse⟩

/-- Numeric value of a digit character. -/
def cval (c : Char) : Int := (c.toNat : Int) - 48

/-- Model of `new Date(s)` for a stored date string: an exact
"YYYY-MM-DD" string parses to **UTC midnight** of that calendar date
(the ECMAScript date-only ISO form); anything else stored in the `date`
column yields an invalid date (`none`), which compares false against
every bound, exactly as `NaN` does in JavaScript. -/
def parseDateUTC (s : String) : Option Int :=
  match s.data with
  | [y1, y2, y3, y4, '-', m1, m2, '-', d1, d2] =>
    if y1.isDigit && y2.isDigit && y3.isDigit && y4.isDigit &&
       m1.isDigit && m2.isDigit && d1.isDigit && d2.isDigit then
      let y := ((cval y1 * 10 + cval y2) * 10 + cval y3) * 10 + cval y4
      let m := cval m1 * 10 + cval m2
      let d := cval d1 * 10 + cval d2
      if 1 ≤ m && m ≤ 12 && 1 ≤ d && d ≤ daysInMonth y m then
        some (daysFromCivil y m d * msPerDay)
      else none
    else none
  | _ => none

/-- Model of `startOfWeek` in `getFilteredExpenses`:
`const startOfWeek = new Date(today); startOfWeek.setDate(today.getDate() - today.getDay())`.
`setDate` moves the local day-of-month while keeping the local time of
day, so with a fixed offset the result is the current instant minus
`getDay()` whole days — the most recent local Sunday **at the current
time of day**, not at local midnight. -/
def startOfWeekMs (now off : Int) : Int := now - getDayJs now off * msPerDay

/-- Model of `startOfMonth` in `getFilteredExpenses`:
`new Date(today.getFullYear(), today.getMonth(), 1)` — local midnight of
the first day of the current local calendar month. -/
def startOfMonthMs (now off : Int) : Int :=
  match civilFromDays (localDay now off) with
  | (y, m, _) => daysFromCivil y m 1 * msPerDay - off * msPerMinute

/-! ## Model of `parseFloat` -/

/-- Value of a digit list read most-significant first. -/
def digitsVal (ds : List Nat) : Nat := ds.foldl (fun a d => a * 10 + d) 0

/-- Longest leading run of decimal digits of a character list, together
with the rest of the list. -/
def takeDigits : List Char → List Nat × List Char
  | [] => ([], [])
  | c :: cs =>
    if c.isDigit then
      let r := takeDigits cs
      ((c.toNat - 48) :: r.1, r.2)
    else ([], c :: cs)

/-- Optional exponent part of a decimal literal (`e`/`E`, optional sign,
digits); consumed only when at least one digit follows, as
`parseFloat("1e")` evaluates to `1`. -/
def takeExponent : List Char → Int × List Char
  | [] => (0, [])
  | c :: cs =>
    if c == 'e' || c == 'E' then
      match cs with
      | '+' :: cs2 =>
        let r := takeDigits cs2
        if r.1.isEmpty then (0, c :: cs) else ((digitsVal r.1 : Int), r.2)
      | '-' :: cs2 =>
        let r := takeDigits cs2
        if r.1.isEmpty then (0, c :: cs) else (-(digitsVal r.1 : Int), r.2)
      | _ =>
        let r := takeDigits cs
        if r.1.isEmpty then (0, c :: cs) else ((digitsVal r.1 : Int), r.2)
    else (0, c :: cs)

/-- Unsigned decimal literal at the front of a character list:
digits, optional `.` with fraction digits, optional exponent.  `none`
when no digit occurs before the exponent (`parseFloat` yields `NaN`). -/
def takeDecimal (cs : List Char) : Option ℚ :=
  let ip := takeDigits cs
  let fp : List Nat × List Char :=
    match ip.2 with
    | '.' :: cs2 => takeDigits cs2
    | _ => ([], ip.2)
  if ip.1.isEmpty && fp.1.isEmpty then none
  else
    let mant : ℚ := (digitsVal ip.1 : ℚ) + (digitsVal fp.1 : ℚ) / ((10 : ℚ) ^ fp.1.length)
    some (mant * (10 : ℚ) ^ (takeExponent fp.2).1)

/-- Model of JavaScript `parseFloat`: skip leading whitespace, optional
sign, then the longest decimal-literal front; `none` models `NaN`. -/
def jsParseFloat (s : String) : Option ℚ :=
  let cs := s.data.dropWhile Char.isWhitespace
  match cs with
  | '+' :: cs2 => takeDecimal cs2
  | '-' :: cs2 => (takeDecimal cs2).map (fun q => -q)
  | _ => takeDecimal cs

/-- The validation test of `saveExpense` on the raw amount string:
`parseFloat` succeeds with a positive value
(the code rejects when `isNaN(amountNumber) || amountNumber <= 0`). -/
def parsesPositive (s : String) : Bool :=
  match jsParseFloat s with
  | some q => decide (0 < q)
  | none => false

/-! ## Data model and store contract -/

/-- One persisted expense record, the data model of section 3 of the
spec and the row shape `src/ExpenseScreen.js` reads and writes.  The
`date` field holds the ISO string the code stores. -/
structure Expense where
  id : Int
  amount : ℚ
  category : String
  note : Option String
  date : String
deriving DecidableEq, Repr

/-- The raw form state a submit reads: amount, category and note input
strings plus `editingId` (`none` = create). -/
structure FormState where
  amount : String
  category : String
  note : String
  editingId : Option Int
deriving DecidableEq, Repr

/-- State of the persistent store: rows in insertion order plus the next
id the autoincrement column will assign. -/
structure Store where
  rows : List Expense
  nextId : Int
deriving DecidableEq, Repr

/-- Modelled from the spec: store contract of section 6,
`insert(amount, category, note_or_null, date)` assigns a new unique id
and appends the row (ids are store-assigned and monotonic). -/
def insertExpense (st : Store) (a : ℚ) (c : String) (n : Option String)
    (d : String) : Store :=
  { rows := st.rows ++ [⟨st.nextId, a, c, n, d⟩], nextId := st.nextId + 1 }

/-- Modelled from the spec: store contract of section 6,
`update(id, amount, category, note_or_null)` rewrites the named fields of
the row with the given id and is a no-op when the id is absent. -/
def updateExpense (st : Store) (i : Int) (a : ℚ) (c : String)
    (n : Option String) : Store :=
  { st with rows := st.rows.map (fun e =>
      if e.id = i then { e with amount := a, category := c, note := n } else e) }

/-- Model of `deleteExpense` in `src/ExpenseScreen.js`:
`DELETE FROM expenses WHERE id = ?` removes every row with the given id
(section 6: no-op if the id is absent). -/
def deleteExpense (st : Store) (i : Int) : Store :=
  { st with rows := st.rows.filter (fun e => !(e.id == i)) }

/-- Model of `saveExpense` in `src/ExpenseScreen.js`, returning the
resulting store together with the number of store write statements
issued.  Mirrors the source: parse the amount, reject NaN or non-positive,
reject an all-whitespace category, normalise the note (empty after trim
becomes null), then either INSERT with `date = getToday()` (no editing
id) or UPDATE amount/category/note by id. -/
def saveExpense (form : FormState) (now : Int) (st : Store) : Store × Nat :=
  match jsParseFloat form.amount with
  | none => (st, 0)
  | some amountNumber =>
    if amountNumber ≤ 0 then (st, 0)
    else if jsTrim form.category = "" then (st, 0)
    else
      let trimmedCategory := jsTrim form.category
      let trimmedNote := if jsTrim form.note = "" then none else some (jsTrim form.note)
      match form.editingId with
      | none => (insertExpense st amountNumber trimmedCategory trimmedNote (getToday now), 1)
      | some i => (updateExpense st i amountNumber trimmedCategory trimmedNote, 1)

/-! ## Filtered view and aggregation -/

/-- Match of one stored date string against an inclusive millisecond
range, as in the filter callbacks: `d >= lo && d <= hi` where
`d = new Date(e.date)`; an invalid date never matches. -/
def matchesRange (lo hi : Int) (ds : String) : Bool :=
  match parseDateUTC ds with
  | some d => decide (lo ≤ d) && decide (d ≤ hi)
  | none => false

/-- Model of `getFilteredExpenses` in `src/ExpenseScreen.js`: `week` and
`month` keep the records whose parsed date lies between the computed
start instant and the current instant; any other mode returns the list
unchanged. -/
def getFilteredExpenses (expenses : List Expense) (filterMode : String)
    (now off : Int) : List Expense :=
  if filterMode = "week" then
    expenses.filter (fun e => matchesRange (startOfWeekMs now off) now e.date)
  else if filterMode = "month" then
    expenses.filter (fun e => matchesRange (startOfMonthMs now off) now e.date)
  else expenses

/-- Model of `getTotalSpending`: `filtered.reduce((sum, e) => sum + e.amount, 0)`. -/
def getTotalSpending (expenses : List Expense) (filterMode : String)
    (now off : Int) : ℚ :=
  (getFilteredExpenses expenses filterMode now off).foldl (fun sum e => sum + e.amount) 0

/-- Update of the `totals` object at one key:
`if (!totals[cat]) totals[cat] = 0; totals[cat] += amt`.  The object is
modelled as an insertion-ordered association list with unique keys; a
missing key is appended at the end with the added amount (0 + amt). -/
def objAdd : List (String × ℚ) → String → ℚ → List (String × ℚ)
  | [], c, a => [(c, a)]
  | p :: t, c, a => if p.1 = c then (p.1, p.2 + a) :: t else p :: objAdd t c a

/-- Model of `getTotalsByCategory`: a single linear accumulation of the
filtered view into the `totals` object. -/
def getTotalsByCategory (expenses : List Expense) (filterMode : String)
    (now off : Int) : List (String × ℚ) :=
  (getFilteredExpenses expenses filterMode now off).foldl
    (fun totals e => objAdd totals e.category e.amount) []

/-- Value stored under a key of the totals object (`none` = key absent). -/
def lookupTotal (t : List (String × ℚ)) (c : String) : Option ℚ :=
  (t.find? (fun p => p.1 == c)).map (fun p => p.2)

/-- Specification-side sum of the amounts of a list of records ("sum of
`amount` over the filtered view"). -/
def amountSum : List Expense → ℚ
  | [] => 0
  | e :: l => e.amount + amountSum l

/-- Specification-side sum of the amounts of the records of one
category. -/
def catSum (c : String) : List Expense → ℚ
  | [] => 0
  | e :: l => (if e.category = c then e.amount else 0) + catSum c l

/-- Sum of the values of a totals object. -/
def valsSum (t : List (String × ℚ)) : ℚ := (t.map (fun p => p.2)).sum

/-! ## SQLite layer for the schema created by `src/App.js` -/

/-- An SQLite value as far as the model needs: NULL, a REAL, or a TEXT. -/
inductive SqlValue where
  | null : SqlValue
  | real (x : ℚ) : SqlValue
  | text (s : String) : SqlValue
deriving DecidableEq, Repr

/-- One column declaration of a table schema. -/
structure Column where
  name : String
  notNull : Bool
  autoPk : Bool
deriving DecidableEq, Repr

/-- The schema `onInit` in `src/App.js` creates:
`CREATE TABLE IF NOT EXISTS expenses (id INTEGER PRIMARY KEY AUTOINCREMENT,
title TEXT NOT NULL, amount REAL NOT NULL, date TEXT NOT NULL)`. -/
def expensesSchemaV2 : List Column :=
  [⟨"id", true, true⟩, ⟨"title", true, false⟩, ⟨"amount", true, false⟩,
   ⟨"date", true, false⟩]

/-- A concrete SQLite table: its schema and its rows (each row a list of
column-name/value pairs). -/
structure SqlTable where
  schema : List Column
  rows : List (List (String × SqlValue))
deriving DecidableEq, Repr

/-- The fresh store after the schema-creation step of `src/App.js`. -/
def createTableV2 : SqlTable := ⟨expensesSchemaV2, []⟩

/-- The column list of the INSERT statement `saveExpense` issues:
`INSERT INTO expenses (amount, category, note, date) VALUES (?, ?, ?, ?)`. -/
def insertColumnsUsed : List String := ["amount", "category", "note", "date"]

/-- SQLite execution of an INSERT naming explicit columns: the statement
fails with "no such column" when a named column is not in the schema of the table, fails the NOT NULL constraint when a non-defaulted NOT NULL
column is left out, and otherwise appends the row. -/
def runInsert (t : SqlTable) (cols : List String) (vals : List SqlValue) :
    Except String SqlTable :=
  match cols.find? (fun c => !(t.schema.any (fun col => col.name == c))) with
  | some c => .error ("table expenses has no column named " ++ c)
  | none =>
    if t.schema.any (fun col => col.notNull && !col.autoPk && !(cols.contains col.name)) then
      .error "NOT NULL constraint failed"
    else
      .ok { t with rows := t.rows ++ [cols.zip vals] }

/-- The round trip of claim C1 run against the real schema: fresh store
from the schema-creation step, then `saveExpense` with raw amount
"12.5", category "Food", note "lunch" and no target id (the validation
logic of the source verbatim), then a load of all rows.  A failing store
statement propagates as the error of the whole round trip (the code
leaves the rejection unhandled). -/
def c1SubmitLoad (now : Int) : Except String (List (List (String × SqlValue))) :=
  match jsParseFloat "12.5" with
  | none => .ok createTableV2.rows
  | some amountNumber =>
    if amountNumber ≤ 0 then .ok createTableV2.rows
    else if jsTrim "Food" = "" then .ok createTableV2.rows
    else
      match runInsert createTableV2 insertColumnsUsed
        [.real amountNumber, .text (jsTrim "Food"),
         .text (jsTrim "lunch"), .text (getToday now)] with
      | .error msg => .error msg
      | .ok t2 => .ok t2.rows

/-! ## Concrete fixtures used by witnesses and concrete theorems -/

/-- Empty store, next autoincrement id 1. -/
def st0 : Store := ⟨[], 1⟩

/-- Records of the aggregation example of claim C4. -/
def esC4 : List Expense :=
  [⟨1, 10, "Food", none, "1970-01-01"⟩, ⟨2, 5, "Food", none, "1970-01-01"⟩,
   ⟨3, 20, "Books", none, "1970-01-01"⟩]

/-- A record dated Monday 1970-01-05. -/
def eMon : Expense := ⟨1, 10, "Food", none, "1970-01-05"⟩

/-- A record dated Sunday 1970-01-04. -/
def eSun : Expense := ⟨2, 10, "Food", none, "1970-01-04"⟩

/-- A record dated Saturday 1970-01-03. -/
def eSat : Expense := ⟨3, 10, "Food", none, "1970-01-03"⟩

/-- A one-record store used by the edit witness. -/
def stC7 : Store := ⟨[⟨3, 10, "Food", some "x", "1970-01-02"⟩], 4⟩

/-- A two-record store used by the delete witness. -/
def stC8 : Store := ⟨[⟨1, 10, "Food", none, "1970-01-01"⟩,
  ⟨2, 20, "Books", none, "1970-01-01"⟩], 3⟩

/-! ## Helper lemmas -/

/-- The amount validation succeeds exactly when `parseFloat` returns a
positive value. -/
theorem parsesPositive_iff (s : String) :
    parsesPositive s = true ↔ ∃ q, jsParseFloat s = some q ∧ 0 < q := by
  unfold parsesPositive
  cases h : jsParseFloat s with
  | none => simp
  | some q => simp

/-- Evaluation of `saveExpense` on a valid create submission. -/
theorem saveExpense_create (form : FormState) (st : Store) (now : Int) (q : ℚ)
    (hq : jsParseFloat form.amount = some q) (hpos : 0 < q)
    (hc : jsTrim form.category ≠ "") (he : form.editingId = none) :
    saveExpense form now st =
      (insertExpense st q (jsTrim form.category)
        (if jsTrim form.note = "" then none else some (jsTrim form.note)) (getToday now), 1) := by
  unfold saveExpense
  rw [hq, he]
  simp [not_le.mpr hpos, hc]

/-- Evaluation of `saveExpense` on a valid update submission. -/
theorem saveExpense_update (form : FormState) (st : Store) (now : Int) (i : Int) (q : ℚ)
    (hq : jsParseFloat form.amount = some q) (hpos : 0 < q)
    (hc : jsTrim form.category ≠ "") (he : form.editingId = some i) :
    saveExpense form now st =
      (updateExpense st i q (jsTrim form.category)
        (if jsTrim form.note = "" then none else some (jsTrim form.note)), 1) := by
  unfold saveExpense
  rw [hq, he]
  simp [not_le.mpr hpos, hc]

/-- Left fold of amount addition equals the initial value plus the sum
of the amounts. -/
theorem foldl_add_amount (l : List Expense) (s : ℚ) :
    l.foldl (fun acc e => acc + e.amount) s = s + amountSum l := by
  induction l generalizing s with
  | nil => simp [amountSum]
  | cons e l ih => simp [amountSum, ih, add_assoc]

/-- Looking up the key just updated by `objAdd` sees the old value (0
when absent) plus the added amount. -/
theorem lookupTotal_objAdd_self (t : List (String × ℚ)) (c : String) (a : ℚ) :
    lookupTotal (objAdd t c a) c = some ((lookupTotal t c).getD 0 + a) := by
  induction t with
  | nil => simp [objAdd, lookupTotal]
  | cons p t ih =>
    by_cases h : p.1 = c
    · simp [objAdd, h, lookupTotal, List.find?_cons]
    · simp only [objAdd, if_neg h, lookupTotal, List.find?_cons]
      have hb : (p.1 == c) = false := by simpa using h
      simp only [hb]
      exact ih

/-- Updating one key of the totals object leaves every other key
unchanged. -/
theorem lookupTotal_objAdd_ne (t : List (String × ℚ)) (c c' : String) (a : ℚ)
    (h : c' ≠ c) :
    lookupTotal (objAdd t c a) c' = lookupTotal t c' := by
  induction t with
  | nil =>
    have hb : (c == c') = false := by simpa using (Ne.symm h)
    simp [objAdd, lookupTotal, hb]
  | cons p t ih =>
    by_cases hp : p.1 = c
    · have hb : (c == c') = false := by simpa using (Ne.symm h)
      simp [objAdd, hp, lookupTotal, List.find?_cons, hb]
    · simp only [objAdd, if_neg hp, lookupTotal, List.find?_cons]
      cases hb : (p.1 == c') with
      | true => simp
      | false => simpa [lookupTotal] using ih

/-- `objAdd` grows the sum of the values of the totals object by the
added amount. -/
theorem valsSum_objAdd (t : List (String × ℚ)) (c : String) (a : ℚ) :
    valsSum (objAdd t c a) = valsSum t + a := by
  induction t with
  | nil => simp [objAdd, valsSum]
  | cons p t ih =>
    by_cases h : p.1 = c
    · simp [objAdd, h, valsSum]; ring
    · simp only [objAdd, if_neg h, valsSum, List.map_cons, List.sum_cons]
      show p.2 + valsSum (objAdd t c a) = p.2 + valsSum t + a
      rw [ih]; ring

/-- Value of one key of the totals object after folding a record list
into it: the prior value (0 when the key was absent) plus the per
category sum of the list; keys occurring in neither stay absent. -/
theorem lookupTotal_totals_foldl (l : List Expense) (t : List (String × ℚ)) (c : String) :
    lookupTotal (l.foldl (fun totals e => objAdd totals e.category e.amount) t) c =
      if l.any (fun e => e.category == c) || (lookupTotal t c).isSome then
        some ((lookupTotal t c).getD 0 + catSum c l)
      else none := by
  induction l generalizing t with
  | nil =>
    cases h : lookupTotal t c with
    | none => simp [catSum, h]
    | some v => simp [catSum, h]
  | cons e l ih =>
    rw [List.foldl_cons, ih]
    by_cases h : e.category = c
    · subst h
      rw [lookupTotal_objAdd_self]
      simp [catSum, add_assoc]
    · have hb : (e.category == c) = false := by simpa using h
      rw [lookupTotal_objAdd_ne t e.category c e.amount (Ne.symm h)]
      simp [catSum, h, hb]

/-- Folding a record list into the totals object grows the sum of its
values by the sum of the amounts. -/
theorem valsSum_totals_foldl (l : List Expense) (t : List (String × ℚ)) :
    valsSum (l.foldl (fun totals e => objAdd totals e.category e.amount) t) =
      valsSum t + amountSum l := by
  induction l generalizing t with
  | nil => simp [amountSum]
  | cons e l ih =>
    rw [List.foldl_cons, ih, valsSum_objAdd, amountSum]
    ring

/-- An update leaves the id and date of every row unchanged. -/
theorem updateExpense_map_id_date (st : Store) (i : Int) (a : ℚ) (c : String)
    (n : Option String) :
    (updateExpense st i a c n).rows.map (fun e => (e.id, e.date)) =
      st.rows.map (fun e => (e.id, e.date)) := by
  unfold updateExpense
  rw [List.map_map]
  apply List.map_congr_left
  intro e _
  by_cases h : e.id = i <;> simp [h]

/-- An update keeps every row with a different id identical. -/
theorem updateExpense_mem_of_ne (st : Store) (i : Int) (a : ℚ) (c : String)
    (n : Option String) (e : Expense) (hmem : e ∈ st.rows) (hne : e.id ≠ i) :
    e ∈ (updateExpense st i a c n).rows := by
  unfold updateExpense
  dsimp only
  have hmm := List.mem_map_of_mem
    (fun e => if e.id = i then { e with amount := a, category := c, note := n } else e) hmem
  dsimp only at hmm
  rw [if_neg hne] at hmm
  exact hmm

/-- An update does not change how many rows carry any given id. -/
theorem updateExpense_length_filter_id (st : Store) (i : Int) (a : ℚ) (c : String)
    (n : Option String) :
    ((updateExpense st i a c n).rows.filter (fun e => e.id == i)).length =
      (st.rows.filter (fun e => e.id == i)).length := by
  unfold updateExpense
  rw [← List.countP_eq_length_filter, ← List.countP_eq_length_filter, List.countP_map]
  congr 1
  funext e
  by_cases h : e.id = i <;> simp [h, Function.comp]

/-! ## Claim theorems -/

/-- C1: the round trip of the claim fails against the table the
schema-creation step of `src/App.js` actually creates.  The created
table has columns `id, title, amount, date`; the INSERT issued by
`saveExpense` names `category` and `note`, so for every current instant
the submission errors with "no such column" and nothing is ever stored,
while the claim promises exactly one loaded record. -/
theorem c1_schema_mismatch (now : Int) :
    c1SubmitLoad now = .error "table expenses has no column named category"
  ∧ createTableV2.rows = [] := by
  exact ⟨rfl, rfl⟩

/-- C2: divergence of the week filter from the claim, evaluated at the
instant 1970-01-05T12:00Z (a Monday, time-zone offset 0) on records
dated today (Monday 01-05), today − 1 (Sunday 01-04, the start of the
week) and start_of_week − 1 (Saturday 01-03).  The claim requires the
week filter to keep the first two; the code keeps only the first,
because the computed week start retains the current time of day
(Sunday 12:00) while the Sunday record parses to Sunday 00:00 UTC.  The
`all` mode does return all three. -/
theorem c2_week_filter_divergence :
    getToday 388800000 = eMon.date
  ∧ getFilteredExpenses [eMon, eSun, eSat] "week" 388800000 0 = [eMon]
  ∧ getFilteredExpenses [eMon, eSun, eSat] "all" 388800000 0 = [eMon, eSun, eSat] := by
  exact ⟨by decide, by decide, rfl⟩

/-- C3: a submission whose amount does not parse to a positive value, or
whose category is empty after trimming, issues zero store writes and
leaves the store unchanged; a submission passing validation issues
exactly one store write. -/
theorem c3_submit_validation (form : FormState) (st : Store) (now : Int) :
    ((parsesPositive form.amount = false ∨ jsTrim form.category = "") →
      saveExpense form now st = (st, 0))
  ∧ ((parsesPositive form.amount = true ∧ jsTrim form.category ≠ "") →
      (saveExpense form now st).2 = 1) := by
  constructor
  · intro h
    unfold saveExpense
    cases hp : jsParseFloat form.amount with
    | none => rfl
    | some q =>
      dsimp only
      rcases h with h | h
      · have hkey : parsesPositive form.amount = decide (0 < q) := by
          unfold parsesPositive
          rw [hp]
        rw [hkey] at h
        have hq : q ≤ 0 := not_lt.mp (of_decide_eq_false h)
        rw [if_pos hq]
      · by_cases hq0 : q ≤ 0
        · rw [if_pos hq0]
        · rw [if_neg hq0, if_pos h]
  · rintro ⟨h1, h2⟩
    obtain ⟨q, hq, hpos⟩ := (parsesPositive_iff _).mp h1
    cases he : form.editingId with
    | none => rw [saveExpense_create form st now q hq hpos h2 he]
    | some i => rw [saveExpense_update form st now i q hq hpos h2 he]

/-- Witness for C3 at concrete inputs: the amount "abc" does not parse,
so nothing happens; the valid create ("12.5", "Food") issues exactly
one write. -/
theorem c3_witness :
    saveExpense ⟨"abc", "Food", "", none⟩ 0 st0 = (st0, 0)
  ∧ (saveExpense ⟨"12.5", "Food", "lunch", none⟩ 0 st0).2 = 1 :=
  ⟨(c3_submit_validation ⟨"abc", "Food", "", none⟩ st0 0).1 (Or.inl (by decide)),
   (c3_submit_validation ⟨"12.5", "Food", "lunch", none⟩ st0 0).2
     ⟨by decide, by decide⟩⟩

/-- C4: the total spending is the sum of the amounts of the filtered
view; the per-category totals map every category occurring in the
filtered view to the sum of its amounts and contain no other key; on
the records Food 10, Food 5, Books 20 the totals are 35 and
Food 15, Books 20. -/
theorem c4_aggregation (expenses : List Expense) (filterMode : String) (now off : Int) :
    (getTotalSpending expenses filterMode now off =
      amountSum (getFilteredExpenses expenses filterMode now off))
  ∧ (∀ c : String,
      lookupTotal (getTotalsByCategory expenses filterMode now off) c =
        if (getFilteredExpenses expenses filterMode now off).any (fun e => e.category == c) then
          some (catSum c (getFilteredExpenses expenses filterMode now off))
        else none)
  ∧ getTotalSpending esC4 "all" 0 0 = 35
  ∧ getTotalsByCategory esC4 "all" 0 0 = [("Food", 15), ("Books", 20)] := by
  refine ⟨?_, ?_, by decide, by decide⟩
  · unfold getTotalSpending
    rw [foldl_add_amount]
    ring
  · intro c
    unfold getTotalsByCategory
    rw [lookupTotal_totals_foldl]
    simp [lookupTotal]

/-- C5: divergence of "a record dated exactly today always matches
`week` and `month`", evaluated at the instant 1970-01-04T12:00Z (a
Sunday, time-zone offset 0).  The record dated today is excluded from
the week view — the computed week start is the current instant itself,
and the record parses to the UTC midnight of today, which is earlier — while
the month view does keep it. -/
theorem c5_today_excluded_on_sunday :
    getToday 302400000 = eSun.date
  ∧ getFilteredExpenses [eSun] "week" 302400000 0 = []
  ∧ getFilteredExpenses [eSun] "month" 302400000 0 = [eSun] := by
  exact ⟨by decide, by decide, by decide⟩

/-- C6 (amended): every create submitted without a target id records as
its date the **UTC** calendar date of the call instant rendered in ISO
"YYYY-MM-DD" form (`toISOString` works in UTC), appended after the
existing rows — not the local calendar date the original claim
named. -/
theorem c6_create_records_utc_date (form : FormState) (st : Store) (now : Int)
    (hv : parsesPositive form.amount = true) (hc : jsTrim form.category ≠ "")
    (he : form.editingId = none) :
    (saveExpense form now st).1.rows.map (fun e => e.date) =
      st.rows.map (fun e => e.date) ++ [isoOfDay (utcDay now)] := by
  obtain ⟨q, hq, hpos⟩ := (parsesPositive_iff _).mp hv
  rw [saveExpense_create form st now q hq hpos hc he]
  simp [insertExpense, getToday]

/-- Witness for the amended C6: a create at noon of 1970-01-01 UTC
stores the date "1970-01-01". -/
theorem c6_witness :
    (saveExpense ⟨"12.5", "Food", "lunch", none⟩ 43200000 st0).1.rows.map
        (fun e => e.date) = ["1970-01-01"] :=
  (c6_create_records_utc_date ⟨"12.5", "Food", "lunch", none⟩ st0 43200000
    (by decide) (by decide) rfl).trans (by decide)

/-- Counterexample to C6 as stated: at the instant 0
(1970-01-01T00:00Z) on a device at offset −300 minutes (UTC−5), the
create stores "1970-01-01", but the local calendar date of the call
instant is 1969-12-31, so the stored date is not the local calendar
date. -/
theorem c6_counterexample :
    (saveExpense ⟨"12.5", "Food", "lunch", none⟩ 0 st0).1.rows.map
        (fun e => e.date) = ["1970-01-01"]
  ∧ isoOfDay (localDay 0 (-300)) = "1969-12-31"
  ∧ ("1970-01-01" : String) ≠ "1969-12-31" := by
  exact ⟨by decide, by decide, by decide⟩

/-- C7: a successful submit with a target id leaves the id and date of
every row unchanged (in particular of the matching row), keeps every
non-matching row identical, and the store still holds exactly one row
with the target id. -/
theorem c7_edit_preserves_identity (form : FormState) (st : Store) (now : Int) (i : Int)
    (hv : parsesPositive form.amount = true) (hc : jsTrim form.category ≠ "")
    (he : form.editingId = some i)
    (huniq : ((st.rows.filter (fun e => e.id == i)).length = 1)) :
    ((saveExpense form now st).1.rows.map (fun e => (e.id, e.date)) =
      st.rows.map (fun e => (e.id, e.date)))
  ∧ (∀ e ∈ st.rows, e.id ≠ i → e ∈ (saveExpense form now st).1.rows)
  ∧ (((saveExpense form now st).1.rows.filter (fun e => e.id == i)).length = 1) := by
  obtain ⟨q, hq, hpos⟩ := (parsesPositive_iff _).mp hv
  rw [saveExpense_update form st now i q hq hpos hc he]
  dsimp only
  refine ⟨updateExpense_map_id_date st i q _ _, ?_, ?_⟩
  · intro e hmem hne
    exact updateExpense_mem_of_ne st i q _ _ e hmem hne
  · rw [updateExpense_length_filter_id]
    exact huniq

/-- Witness for C7: editing record id 3 of a one-record store. -/
theorem c7_witness :
    ((saveExpense ⟨"20", "Books", "", some 3⟩ 0 stC7).1.rows.map (fun e => (e.id, e.date)) =
      stC7.rows.map (fun e => (e.id, e.date)))
  ∧ (∀ e ∈ stC7.rows, e.id ≠ 3 → e ∈ (saveExpense ⟨"20", "Books", "", some 3⟩ 0 stC7).1.rows)
  ∧ (((saveExpense ⟨"20", "Books", "", some 3⟩ 0 stC7).1.rows.filter
        (fun e => e.id == 3)).length = 1) :=
  c7_edit_preserves_identity ⟨"20", "Books", "", some 3⟩ stC7 0 3
    (by decide) (by decide) rfl (by decide)

/-- C8: deleting an id removes every row with that id, deleting the same
id twice yields the same store as deleting it once, and deleting an id
that is not present leaves the store unchanged. -/
theorem c8_delete_idempotent (st : Store) (i : Int) :
    deleteExpense (deleteExpense st i) i = deleteExpense st i
  ∧ (∀ e ∈ (deleteExpense st i).rows, e.id ≠ i)
  ∧ ((∀ e ∈ st.rows, e.id ≠ i) → deleteExpense st i = st) := by
  refine ⟨?_, ?_, ?_⟩
  · unfold deleteExpense
    rw [List.filter_filter]
    simp
  · intro e hmem
    unfold deleteExpense at hmem
    simp only [List.mem_filter, Bool.not_eq_true'] at hmem
    simpa using hmem.2
  · intro h
    unfold deleteExpense
    have : st.rows.filter (fun e => !(e.id == i)) = st.rows := by
      rw [List.filter_eq_self]
      intro a ha
      simpa using h a ha
    rw [this]

/-- Witness for C8: applies the no-op part of the theorem at id 5,
absent from the concrete store. -/
theorem c8_witness : deleteExpense stC8 5 = stC8 :=
  (c8_delete_idempotent stC8 5).2.2 (by decide)

/-- C9: the sum of the values of the per-category totals equals the
total spending, for every list, every filter mode and every instant. -/
theorem c9_totals_sum_eq_spending (expenses : List Expense) (filterMode : String)
    (now off : Int) :
    valsSum (getTotalsByCategory expenses filterMode now off) =
      getTotalSpending expenses filterMode now off := by
  unfold getTotalsByCategory getTotalSpending
  rw [valsSum_totals_foldl, foldl_add_amount]
  simp [valsSum]

/-- C10: for every filter-mode string other than "week" and "month" —
not only "all" — `getFilteredExpenses` returns the in-memory list
unchanged, in order. -/
theorem c10_other_modes_identity (expenses : List Expense) (filterMode : String)
    (now off : Int) (h1 : filterMode ≠ "week") (h2 : filterMode ≠ "month") :
    getFilteredExpenses expenses filterMode now off = expenses := by
  unfold getFilteredExpenses
  rw [if_neg h1, if_neg h2]

/-- Witness for C10 at the unlisted mode "banana". -/
theorem c10_witness : getFilteredExpenses [eMon] "banana" 0 0 = [eMon] :=
  c10_other_modes_identity [eMon] "banana" 0 0 (by decide) (by decide)

end ExpenseTracker
